import Mathlib

/-!
Verification development for the object-to-directory library.

Strings are modelled as `List Char`. JavaScript string methods used by the
source (`String.prototype.replaceAll` with a non-empty string pattern,
`String.prototype.startsWith`) are given explicit executable definitions,
and the library functions are transcribed from the TypeScript source on top
of them.
-/

namespace OTD

/-- A JavaScript string, modelled as its list of characters. -/
abbrev Str := List Char

/-- Worker for `replaceAll`, structurally recursive on a step bound. Every
step consumes at least one input character, so a bound of the input length
never runs out; the `0` case is unreachable under that bound. -/
def replaceAllAux (pat rep : Str) : Nat → Str → Str
  | 0, s => s
  | _ + 1, [] => []
  | fuel + 1, c :: rest =>
    if pat ≠ [] ∧ pat.isPrefixOf (c :: rest) then
      rep ++ replaceAllAux pat rep fuel (List.drop (pat.length - 1) rest)
    else
      c :: replaceAllAux pat rep fuel rest

/-- Model of `String.prototype.replaceAll(pat, rep)` for a non-empty string
pattern `pat`: scan left to right, replace each non-overlapping leftmost
occurrence of `pat` by `rep`; replacement text is not rescanned. For the
(unused) empty pattern the input is returned unchanged. -/
def replaceAll (pat rep : Str) (s : Str) : Str :=
  replaceAllAux pat rep s.length s

theorem replaceAllAux_fuel_irrel (pat rep : Str) (fuel₁ : Nat) :
    ∀ (fuel₂ : Nat) (s : Str), s.length ≤ fuel₁ → s.length ≤ fuel₂ →
      replaceAllAux pat rep fuel₁ s = replaceAllAux pat rep fuel₂ s := by
  induction fuel₁ with
  | zero =>
    intro fuel₂ s h1 _
    have : s = [] := List.eq_nil_of_length_eq_zero (Nat.le_zero.mp h1)
    subst this
    cases fuel₂ <;> rfl
  | succ f₁ ih =>
    intro fuel₂ s h1 h2
    cases s with
    | nil => cases fuel₂ <;> rfl
    | cons c rest =>
      cases fuel₂ with
      | zero => exact absurd h2 (by simp)
      | succ f₂ =>
        have h1' : rest.length ≤ f₁ := by
          simp only [List.length_cons] at h1
          omega
        have h2' : rest.length ≤ f₂ := by
          simp only [List.length_cons] at h2
          omega
        simp only [replaceAllAux]
        split
        · have hd1 : (List.drop (pat.length - 1) rest).length ≤ f₁ := by
            simp only [List.length_drop]
            omega
          have hd2 : (List.drop (pat.length - 1) rest).length ≤ f₂ := by
            simp only [List.length_drop]
            omega
          rw [ih f₂ (List.drop (pat.length - 1) rest) hd1 hd2]
        · rw [ih f₂ rest h1' h2']

theorem replaceAll_unfold_cons (pat rep : Str) (c : Char) (rest : Str) :
    replaceAll pat rep (c :: rest) =
      if pat ≠ [] ∧ pat.isPrefixOf (c :: rest) then
        rep ++ replaceAll pat rep (List.drop (pat.length - 1) rest)
      else
        c :: replaceAll pat rep rest := by
  unfold replaceAll
  simp only [List.length_cons, replaceAllAux]
  split
  · rw [replaceAllAux_fuel_irrel pat rep rest.length
      ((List.drop (pat.length - 1) rest).length) (List.drop (pat.length - 1) rest)
      (by simp [List.length_drop]) (le_refl _)]
  · rfl

/-- Source (`path_encoder.ts`):
`return element.replaceAll("%", "%25").replaceAll("/", "%2F");` -/
def encodePathElement (element : Str) : Str :=
  replaceAll ['/'] ['%', '2', 'F'] (replaceAll ['%'] ['%', '2', '5'] element)

/-- Source (`path_encoder.ts`):
`return element.replaceAll("%2F", "/").replaceAll("%25", "%");` -/
def decodePathElement (element : Str) : Str :=
  replaceAll ['%', '2', '5'] ['%'] (replaceAll ['%', '2', 'F'] ['/'] element)

theorem replaceAll_nil (pat rep : Str) : replaceAll pat rep [] = [] := rfl

theorem replaceAll_pct25_cons_pct (t : Str) :
    replaceAll ['%'] ['%', '2', '5'] ('%' :: t) =
      '%' :: '2' :: '5' :: replaceAll ['%'] ['%', '2', '5'] t := by
  rw [replaceAll_unfold_cons]
  simp [List.isPrefixOf]

theorem replaceAll_pct25_cons_other {c : Char} (h : c ≠ '%') (t : Str) :
    replaceAll ['%'] ['%', '2', '5'] (c :: t) =
      c :: replaceAll ['%'] ['%', '2', '5'] t := by
  rw [replaceAll_unfold_cons]
  simp [List.isPrefixOf, h, Ne.symm h]

theorem replaceAll_slash_cons_slash (t : Str) :
    replaceAll ['/'] ['%', '2', 'F'] ('/' :: t) =
      '%' :: '2' :: 'F' :: replaceAll ['/'] ['%', '2', 'F'] t := by
  rw [replaceAll_unfold_cons]
  simp [List.isPrefixOf]

theorem replaceAll_slash_cons_other {c : Char} (h : c ≠ '/') (t : Str) :
    replaceAll ['/'] ['%', '2', 'F'] (c :: t) =
      c :: replaceAll ['/'] ['%', '2', 'F'] t := by
  rw [replaceAll_unfold_cons]
  simp [List.isPrefixOf, h, Ne.symm h]

theorem decode1_cons_esc25 (t : Str) :
    replaceAll ['%', '2', 'F'] ['/'] ('%' :: '2' :: '5' :: t) =
      '%' :: '2' :: '5' :: replaceAll ['%', '2', 'F'] ['/'] t := by
  rw [replaceAll_unfold_cons]
  simp only [List.isPrefixOf, List.isPrefixOf_cons₂]
  rw [replaceAll_unfold_cons]
  simp only [List.isPrefixOf]
  rw [replaceAll_unfold_cons]
  simp [List.isPrefixOf]

theorem decode1_cons_esc2F (t : Str) :
    replaceAll ['%', '2', 'F'] ['/'] ('%' :: '2' :: 'F' :: t) =
      '/' :: replaceAll ['%', '2', 'F'] ['/'] t := by
  rw [replaceAll_unfold_cons]
  simp [List.isPrefixOf]

theorem decode1_cons_other {c : Char} (h : c ≠ '%') (t : Str) :
    replaceAll ['%', '2', 'F'] ['/'] (c :: t) =
      c :: replaceAll ['%', '2', 'F'] ['/'] t := by
  rw [replaceAll_unfold_cons]
  simp [List.isPrefixOf, h, Ne.symm h]

theorem decode2_cons_esc25 (t : Str) :
    replaceAll ['%', '2', '5'] ['%'] ('%' :: '2' :: '5' :: t) =
      '%' :: replaceAll ['%', '2', '5'] ['%'] t := by
  rw [replaceAll_unfold_cons]
  simp [List.isPrefixOf]

theorem decode2_cons_other {c : Char} (h : c ≠ '%') (t : Str) :
    replaceAll ['%', '2', '5'] ['%'] (c :: t) =
      c :: replaceAll ['%', '2', '5'] ['%'] t := by
  rw [replaceAll_unfold_cons]
  simp [List.isPrefixOf, h, Ne.symm h]

theorem encodePathElement_cons_pct (s : Str) :
    encodePathElement ('%' :: s) = '%' :: '2' :: '5' :: encodePathElement s := by
  unfold encodePathElement
  rw [replaceAll_pct25_cons_pct]
  rw [replaceAll_slash_cons_other (by decide)]
  rw [replaceAll_slash_cons_other (by decide)]
  rw [replaceAll_slash_cons_other (by decide)]

theorem encodePathElement_cons_slash (s : Str) :
    encodePathElement ('/' :: s) = '%' :: '2' :: 'F' :: encodePathElement s := by
  unfold encodePathElement
  rw [replaceAll_pct25_cons_other (by decide)]
  rw [replaceAll_slash_cons_slash]

theorem encodePathElement_cons_other {c : Char} (h1 : c ≠ '%') (h2 : c ≠ '/')
    (s : Str) : encodePathElement (c :: s) = c :: encodePathElement s := by
  unfold encodePathElement
  rw [replaceAll_pct25_cons_other h1]
  rw [replaceAll_slash_cons_other h2]

/-- One step of the segment normalization inside `@std/path/posix` `normalize`
(Node's `normalizeString`): empty and `"."` segments are dropped, `".."` pops
the previous segment (kept only above the root of a relative path when
`allowAbove` is true), and any other segment is pushed. -/
def normSegsStep (allowAbove : Bool) (acc : List Str) (seg : Str) : List Str :=
  if seg = [] ∨ seg = ['.'] then acc
  else if seg = ['.', '.'] then
    if allowAbove ∧ (acc = [] ∨ acc.getLast? = some ['.', '.']) then acc ++ [seg]
    else acc.dropLast
  else acc ++ [seg]

/-- Model of `normalize` from `@std/path/posix` (the only external path
function used by `directory_reference.ts`): split on `/`, normalize the
segment list, keep a trailing slash when the input had one and the result is
nonempty, return `"."` for an empty relative result. -/
def posixNormalize (p : Str) : Str :=
  if p = [] then ['.']
  else
    let isAbs := p.head? = some '/'
    let hadTrail := p.getLast? = some '/'
    let segs := (p.splitOn '/').foldl (normSegsStep (!isAbs)) []
    let core := List.intercalate ['/'] segs
    let core := if core = [] ∧ ¬ isAbs then ['.'] else core
    let core := if core ≠ [] ∧ hadTrail then core ++ ['/'] else core
    if isAbs then '/' :: core else core

/-- Whether a path segment is a WHATWG double-dot segment (`".."` and its
percent-encoded spellings, ASCII-case-insensitively). -/
def isDoubleDotSeg (seg : Str) : Bool :=
  seg = ['.', '.'] ∨ seg.map Char.toLower = ('.' :: "%2e".data) ∨
    seg.map Char.toLower = ("%2e".data ++ ['.']) ∨
    seg.map Char.toLower = ("%2e%2e".data)

/-- Whether a path segment is a WHATWG single-dot segment (`"."` or `"%2e"`,
ASCII-case-insensitively). -/
def isSingleDotSeg (seg : Str) : Bool :=
  seg = ['.'] ∨ seg.map Char.toLower = ("%2e".data)

/-- One segment of the WHATWG basic URL parser's path state: double-dot pops
the last segment, single-dot is dropped, anything else is pushed; at the end
of the input a dot segment additionally leaves a trailing empty segment
(hence a trailing slash). -/
def whatwgAppend (acc : List Str) (isLast : Bool) (seg : Str) : List Str :=
  if isDoubleDotSeg seg then acc.dropLast ++ (if isLast then [([] : Str)] else [])
  else if isSingleDotSeg seg then acc ++ (if isLast then [([] : Str)] else [])
  else acc ++ [seg]

/-- Run the WHATWG path state over a nonempty list of raw segments. -/
def whatwgProcess (acc : List Str) : List Str → List Str
  | [] => acc
  | [seg] => whatwgAppend acc true seg
  | seg :: rest => whatwgProcess (whatwgAppend acc false seg) rest

/-- Split an absolute pathname (leading `/`) into its URL path segments:
`"/a/b/"` becomes `["a", "b", ""]` and `"/"` becomes `[""]`. -/
def pathToSegs (p : Str) : List Str := (p.drop 1).splitOn '/'

/-- Serialize URL path segments back to a pathname string. -/
def segsToPath (segs : List Str) : Str :=
  segs.foldl (fun acc seg => acc ++ '/' :: seg) []

/-- Model of `new URL(name, base).pathname` where `base` is an absolute URL
whose pathname is `basePath` (ending in a slash in all uses here) and `name`
is a path-only relative reference. The model covers names built from
characters the URL parser leaves verbatim in pathnames (no `?`, `#`, `\`, no
characters from the path percent-encode set, no leading `//`); this is the
domain the library feeds it: `encodeURIComponent` output and the plain
traversal names exercised by the repository's tests. -/
def urlResolveUnderBase (basePath name : Str) : Str :=
  if name = [] then basePath
  else if name.head? = some '/' then
    segsToPath (whatwgProcess [] ((name.drop 1).splitOn '/'))
  else
    segsToPath (whatwgProcess (pathToSegs basePath).dropLast (name.splitOn '/'))

/-- Source (`directory_reference.ts`): the `DirectoryEscapeError` carries, in
constructor order, the offending name (`candidatePath`), the resolved path
(`escapedPath`) and the enclosing canonical path (`enclosingPath`). -/
structure DirectoryEscapeError where
  candidatePath : Str
  escapedPath : Str
  enclosingPath : Str
deriving DecidableEq, Repr

/-- Model of assigning a string to `URL.pathname` on a special-scheme URL when
the string is already a normalized path: an empty assignment serializes back
as `"/"` (as in `new URL("file:///").pathname`), anything else parses to
itself. -/
def setPathnameNonEmpty (s : Str) : Str := if s = [] then ['/'] else s

/-- Model of the `DirectoryReference` class: the canonical pathname (no
trailing slash) and the pathname with a trailing slash
(`#urlWithTrailingSlash`). Only pathnames are modelled; scheme and authority
are unchanged by every operation of the class. -/
structure DirectoryReference where
  canonicalPath : Str
  trailingSlashPath : Str
deriving DecidableEq, Repr

/-- Source (`directory_reference.ts` constructor): normalize the input
pathname; if it ends with a slash, the canonical path is the result of
chopping that slash (re-assigned through the pathname setter), else the
trailing-slash path is the normalized path plus `"/"`. -/
def mkDirectoryReference (pathname : Str) : DirectoryReference :=
  let normalized := posixNormalize pathname
  if normalized.getLast? = some '/' then
    { canonicalPath := setPathnameNonEmpty normalized.dropLast
      trailingSlashPath := normalized }
  else
    { canonicalPath := normalized, trailingSlashPath := normalized ++ ['/'] }

/-- Source (`directory_reference.ts` `getContentsUrl`): resolve `name`
against the trailing-slash URL, normalize the resulting pathname, and raise
`DirectoryEscapeError(name, contentsUrl.pathname, canonicalUrl.pathname)`
unless the trailing-slash pathname is a prefix of the result. -/
def getContentsUrlE (dr : DirectoryReference) (name : Str) :
    Except DirectoryEscapeError Str :=
  let resolved := posixNormalize (urlResolveUnderBase dr.trailingSlashPath name)
  if dr.trailingSlashPath.isPrefixOf resolved then Except.ok resolved
  else Except.error ⟨name, resolved, dr.canonicalPath⟩

/-- The repository's `DirectoryReference` construction tests, replayed on the
model (`directory_reference.test.ts`). -/
theorem dirRef_constructor_tests :
    (mkDirectoryReference ("/".data)).canonicalPath = "/".data ∧
    (mkDirectoryReference ("/foo/bar/".data)).canonicalPath = "/foo/bar".data ∧
    (mkDirectoryReference ("/foo//bar".data)).canonicalPath = "/foo/bar".data ∧
    (mkDirectoryReference ("/foo//bar//baz//".data)).canonicalPath =
      "/foo/bar/baz".data ∧
    (mkDirectoryReference ("/foo/bar/../../baz".data)).canonicalPath =
      "/baz".data ∧
    (mkDirectoryReference ("/foo/bar/../../../baz".data)).canonicalPath =
      "/baz".data := by
  decide

/-- The repository's `getContentsUrl` tests, replayed on the model
(`directory_reference.test.ts`). -/
theorem dirRef_contents_tests :
    getContentsUrlE (mkDirectoryReference ("/".data)) ("x".data) =
      Except.ok ("/x".data) ∧
    getContentsUrlE (mkDirectoryReference ("/".data)) ("x/".data) =
      Except.ok ("/x/".data) ∧
    getContentsUrlE (mkDirectoryReference ("/".data)) ("x/y/z".data) =
      Except.ok ("/x/y/z".data) ∧
    getContentsUrlE (mkDirectoryReference ("/foo/bar/".data)) ("x//y///z".data) =
      Except.ok ("/foo/bar/x/y/z".data) ∧
    getContentsUrlE (mkDirectoryReference ("/foo//bar".data)) ("x/../z".data) =
      Except.ok ("/foo/bar/z".data) ∧
    getContentsUrlE (mkDirectoryReference ("/foo//bar//baz//".data))
        ("../../../foo/bar/baz/z".data) =
      Except.ok ("/foo/bar/baz/z".data) ∧
    getContentsUrlE (mkDirectoryReference ("/baz".data)) ("../x".data) =
      Except.error ⟨"../x".data, "/x".data, "/baz".data⟩ ∧
    getContentsUrlE (mkDirectoryReference ("/foo/bar/baz".data))
        ("x/../../y".data) =
      Except.error ⟨"x/../../y".data, "/foo/bar/y".data, "/foo/bar/baz".data⟩ := by
  refine ⟨?_, ?_, ?_, ?_, ?_, ?_, ?_, ?_⟩ <;> rfl

/-- The trailing-slash path of a directory reference is the canonical path
followed by exactly one separator, except at the root where both are `"/"`. -/
theorem trailingSlash_characterization (p : Str) :
    (mkDirectoryReference p).canonicalPath = ['/'] ∨
      (mkDirectoryReference p).trailingSlashPath =
        (mkDirectoryReference p).canonicalPath ++ ['/'] := by
  unfold mkDirectoryReference
  rcases List.eq_nil_or_concat (posixNormalize p) with h | ⟨l, c, h⟩
  · rw [h]
    simp [setPathnameNonEmpty]
  · rw [h]
    by_cases hc : c = '/'
    · subst hc
      simp only [List.getLast?_concat, if_pos rfl]
      by_cases hl : l = []
      · subst hl
        simp [setPathnameNonEmpty]
      · right
        simp [setPathnameNonEmpty, hl, List.dropLast_concat]
    · right
      simp only [List.getLast?_concat]
      rw [if_neg (by simp [hc])]

/-- An uppercase hexadecimal digit. -/
def toHexDigitUpper (n : Nat) : Char :=
  if n < 10 then Char.ofNat (48 + n) else Char.ofNat (55 + n)

/-- Percent-encode one byte with uppercase hexadecimal digits. -/
def percentEncodeByte (b : Nat) : Str :=
  ['%', toHexDigitUpper (b / 16), toHexDigitUpper (b % 16)]

/-- The UTF-8 bytes of a character. -/
def utf8BytesOfChar (c : Char) : List Nat :=
  let n := c.toNat
  if n < 128 then [n]
  else if n < 2048 then [192 + n / 64, 128 + n % 64]
  else if n < 65536 then [224 + n / 4096, 128 + (n / 64) % 64, 128 + n % 64]
  else [240 + n / 262144, 128 + (n / 4096) % 64, 128 + (n / 64) % 64, 128 + n % 64]

/-- The characters `encodeURIComponent` leaves unescaped: ASCII letters,
digits, and `- _ . ! ~ * ' ( )`. -/
def uriUnreservedChar (c : Char) : Bool :=
  (c.isAlpha && c.toNat < 128) || c.isDigit || c = '-' || c = '_' || c = '.' ||
    c = '!' || c = '~' || c = '*' || c = Char.ofNat 39 || c = '(' || c = ')'

/-- Model of the ECMAScript `encodeURIComponent` function: unreserved
characters are kept, every other character is replaced by the uppercase
percent-encoding of its UTF-8 bytes. -/
def encodeURIComponent (s : Str) : Str :=
  (s.map fun c =>
    if uriUnreservedChar c then [c]
    else ((utf8BytesOfChar c).map percentEncodeByte).flatten).flatten

/-- A JavaScript value, as far as the engine inspects one. An object's
property list is kept in the enumeration order `Object.entries` reports. -/
inductive JSValue where
  | vNull
  | vUndefined
  | vBool (b : Bool)
  | vNum (n : Int)
  | vStr (s : Str)
  | vArr (elems : List JSValue)
  | vObj (props : List (Str × JSValue))
deriving Repr

/-- JavaScript truthiness of a string: nonempty strings are truthy. -/
def strTruthy (s : Str) : Bool := s ≠ []

/-- The `typeof` of a boolean value is the string `"boolean"`. -/
def jsTypeofOfBool (_b : Bool) : Str := "boolean".data

/-- Strict equality of a value with a string literal. -/
def jsStrictEqToStr (v : JSValue) (s : Str) : Bool :=
  match v with
  | .vStr t => t = s
  | _ => false

/-- Strict comparison with `null`. -/
def jsIsNull : JSValue → Bool
  | .vNull => true
  | _ => false

/-- The `Array.isArray` check. -/
def isJsArray : JSValue → Bool
  | .vArr _ => true
  | _ => false

/-- Source (`merge_utilities.ts`):
`return typeof (candidate === "object") && (candidate !== null) && !Array.isArray(candidate);`
The `typeof` operator applies to the parenthesized comparison, so the first
conjunct is the truthiness of the string `"boolean"` — which is always true.
The transcription keeps that structure. -/
def isObject (candidate : JSValue) : Bool :=
  strTruthy (jsTypeofOfBool (jsStrictEqToStr candidate ("object".data))) &&
    !(jsIsNull candidate) && !(isJsArray candidate)

theorem isObject_eq (v : JSValue) :
    isObject v = (!(jsIsNull v) && !(isJsArray v)) := by
  cases v <;> rfl

/-- Decimal digits of a natural number, as a string. -/
def natToDecStr (n : Nat) : Str := Nat.toDigits 10 n

/-- Model of `Object.entries`: objects enumerate their property list, strings
enumerate their indexed characters, other primitives have no own enumerable
properties, and `null`/`undefined` make `Object.entries` throw a native
`TypeError`. -/
def jsEntriesE : JSValue → Except Unit (List (Str × JSValue))
  | .vNull => .error ()
  | .vUndefined => .error ()
  | .vObj props => .ok props
  | .vStr s => .ok (s.enum.map fun ic => (natToDecStr ic.1, .vStr [ic.2]))
  | _ => .ok []

/-- An `AbortSignal`, reduced to an identity and its aborted flag. -/
structure AbortSignalModel where
  id : Nat
  aborted : Bool
deriving DecidableEq, Repr

/-- The option record of `interfaces.ts` (`ValueStorageHandlerOptions`):
`signal`, `mode`, `strict` and `propertyNameEncoder`, each optional. A field
of `none` models an absent key. -/
structure ValueStorageHandlerOptions where
  signal : Option AbortSignalModel
  mode : Option Nat
  strict : Option Bool
  propertyNameEncoder : Option (Str → Str)

/-- The empty option record (`const mergedOptions: T = \x7b\x7d`). -/
def emptyOptions : ValueStorageHandlerOptions := ⟨none, none, none, none⟩

/-- Model of `Object.assign(target, src)` on option records: every key
present in `src` overwrites the one in `target`. -/
def objAssign (target src : ValueStorageHandlerOptions) :
    ValueStorageHandlerOptions where
  signal := src.signal.orElse fun _ => target.signal
  mode := src.mode.orElse fun _ => target.mode
  strict := src.strict.orElse fun _ => target.strict
  propertyNameEncoder :=
    src.propertyNameEncoder.orElse fun _ => target.propertyNameEncoder

/-- Source (`merge_utilities.ts` `mergeOptions`): `undefined` inputs short
circuit; otherwise a fresh record receives the defaults and then the explicit
options via `Object.assign`. -/
def mergeOptions (defaultOptions options : Option ValueStorageHandlerOptions) :
    Option ValueStorageHandlerOptions :=
  match defaultOptions, options with
  | none, o => o
  | some d, none => some d
  | some d, some o => some (objAssign (objAssign emptyOptions d) o)

/-- A candidate value storage handler, as the engine sees one: an
applicability test and a store operation that either completes or rejects
with an opaque error code. -/
structure Handler where
  canStore : Str → Str → JSValue → Bool
  runStore : Str → Str → JSValue → Option ValueStorageHandlerOptions →
    Except Nat Unit

/-- Observable actions of a `storeValue` run: directory creations,
`canStoreValue` queries and `storeValue` delegations, with handlers named by
their index in the candidate list. -/
inductive Event where
  | createDir (url : Str)
  | canStoreQuery (handlerIdx : Nat) (pathInSource url : Str) (v : JSValue)
  | storeCall (handlerIdx : Nat) (pathInSource url : Str) (v : JSValue)
      (opts : Option ValueStorageHandlerOptions)

/-- Outcome of scanning the candidate handler list for one property. -/
inductive ScanResult where
  | stored
  | failed (code : Nat)
  | noMatch
deriving DecidableEq, Repr

/-- Source (`directory_storer.ts`, inner `for` loop over `this.#handlers`):
consult each candidate in order; the first whose `canStoreValue` is true is
invoked via `storeValue` and the scan stops (`stored = true; break`). Every
consultation and delegation is logged. -/
def scanHandlers (idx : Nat) (handlers : List Handler) (pathInSource url : Str)
    (v : JSValue) (opts : Option ValueStorageHandlerOptions) :
    List Event × ScanResult :=
  match handlers with
  | [] => ([], .noMatch)
  | h :: rest =>
    if h.canStore pathInSource url v then
      match h.runStore pathInSource url v opts with
      | .ok _ =>
        ([.canStoreQuery idx pathInSource url v,
          .storeCall idx pathInSource url v opts], .stored)
      | .error c =>
        ([.canStoreQuery idx pathInSource url v,
          .storeCall idx pathInSource url v opts], .failed c)
    else
      let r := scanHandlers (idx + 1) rest pathInSource url v opts
      (.canStoreQuery idx pathInSource url v :: r.1, r.2)

/-- Errors a `storeValue` run can surface. `outOfFuel` is a model artifact
marking that the source would recurse beyond the given depth bound (the real
code has no bound and overflows the stack on such inputs). -/
inductive EngineError where
  | aborted (signalId : Nat)
  | typeMismatch (pathInSource : Str)
  | entriesTypeError
  | dirEscape (e : DirectoryEscapeError)
  | handlerFailure (code : Nat)
  | noHandlerMatched (pathInSource : Str)
  | outOfFuel
deriving DecidableEq, Repr

/-- Model of `options?.signal?.throwIfAborted()`: the id of the aborted
signal, if the call-site options carry one. -/
def throwIfAbortedCheck (opts : Option ValueStorageHandlerOptions) :
    Option Nat :=
  match opts with
  | some o =>
    match o.signal with
    | some sig => if sig.aborted then some sig.id else none
    | none => none
  | none => none

/-- Source: `const propertyNameEncoder = mergedOptions?.propertyNameEncoder ?? encodePathElement;` -/
def effectiveEncoder (merged : Option ValueStorageHandlerOptions) :
    Str → Str :=
  match merged with
  | some o => o.propertyNameEncoder.getD encodePathElement
  | none => encodePathElement

/-- Truthiness of `mergedOptions?.strict`. -/
def strictFlag (merged : Option ValueStorageHandlerOptions) : Bool :=
  match merged with
  | some o => o.strict.getD false
  | none => false

/-- Source (`directory_storer.ts`, the `for (const [nestedKey, nestedValue]
of Object.entries(value))` loop): per property, build
`nestedPathInSource = pathInSource + "/" + encodePathElement(nestedKey)`,
resolve `getContentsUrl(encodeURIComponent(propertyNameEncoder(nestedKey)))`
(a `DirectoryEscapeError` aborts the run), scan the handlers, recurse into
the engine itself when nothing matched but `canStoreValue` holds, and
otherwise fail under `strict` or skip. The recursive engine call is passed
in as `recurse`. -/
def runProps
    (recurse : Str → Str → JSValue → Option ValueStorageHandlerOptions →
      List Event × Except EngineError Unit)
    (handlers : List Handler) (dr : DirectoryReference) (pathInSource : Str)
    (merged : Option ValueStorageHandlerOptions) :
    List (Str × JSValue) → List Event × Except EngineError Unit
  | [] => ([], .ok ())
  | (key, nestedValue) :: rest =>
    let nestedPath := pathInSource ++ '/' :: encodePathElement key
    match getContentsUrlE dr (encodeURIComponent (effectiveEncoder merged key)) with
    | .error e => ([], .error (.dirEscape e))
    | .ok nestedUrl =>
      let scanned := scanHandlers 0 handlers nestedPath nestedUrl nestedValue merged
      match scanned.2 with
      | .failed c => (scanned.1, .error (.handlerFailure c))
      | .stored =>
        let r := runProps recurse handlers dr pathInSource merged rest
        (scanned.1 ++ r.1, r.2)
      | .noMatch =>
        if isObject nestedValue then
          let rec1 := recurse nestedPath nestedUrl nestedValue merged
          match rec1.2 with
          | .ok _ =>
            let r := runProps recurse handlers dr pathInSource merged rest
            (scanned.1 ++ rec1.1 ++ r.1, r.2)
          | .error e => (scanned.1 ++ rec1.1, .error e)
        else if strictFlag merged then
          (scanned.1, .error (.noHandlerMatched nestedPath))
        else
          let r := runProps recurse handlers dr pathInSource merged rest
          (scanned.1 ++ r.1, r.2)

/-- Source (`directory_storer.ts` `DirectoryValueStorageHandler.storeValue`),
with a recursion-depth bound `fuel`: check the call-site signal, reject
non-objects (per the buggy `isObject`, only `null` and arrays) with a
`TypeError` naming `pathInSource`, build the directory reference, merge the
construction-time default options with the call-site options, create the
destination directory at the canonical URL, then process the
`Object.entries` of the value in order. -/
def storeValueFuel (fuel : Nat) (handlers : List Handler)
    (defaultOptions : Option ValueStorageHandlerOptions)
    (pathInSource destUrl : Str) (value : JSValue)
    (options : Option ValueStorageHandlerOptions) :
    List Event × Except EngineError Unit :=
  match fuel with
  | 0 => ([], .error .outOfFuel)
  | fuel + 1 =>
    match throwIfAbortedCheck options with
    | some i => ([], .error (.aborted i))
    | none =>
      if !(isObject value) then ([], .error (.typeMismatch pathInSource))
      else
        let dr := mkDirectoryReference destUrl
        let merged := mergeOptions defaultOptions options
        match jsEntriesE value with
        | .error _ => ([Event.createDir dr.canonicalPath], .error .entriesTypeError)
        | .ok props =>
          let r := runProps
            (fun p u v o => storeValueFuel fuel handlers defaultOptions p u v o)
            handlers dr pathInSource merged props
          (Event.createDir dr.canonicalPath :: r.1, r.2)

/-- Model of `DirectoryValueStorageHandler.canStoreValue`: `isObject(value)`,
ignoring the path and destination arguments. -/
def canStoreValue (_pathInSource _destinationUrl : Str) (value : JSValue) :
    Bool :=
  isObject value

/-- The scan outcome determined by a handler's store result. -/
def scanOutcomeOf (r : Except Nat Unit) : ScanResult :=
  match r with
  | .ok _ => .stored
  | .error c => .failed c

/-- How many `storeCall` events a trace contains. -/
def countStoreCalls (evs : List Event) : Nat :=
  (evs.filter fun e =>
    match e with
    | .storeCall _ _ _ _ _ => true
    | _ => false).length

/-- A handler that never matches. -/
def neverHandler : Handler := ⟨fun _ _ _ => false, fun _ _ _ _ => .ok ()⟩

/-- A handler that matches exactly string values and stores successfully,
mirroring the applicability test of the text-file handler in
`factories.ts` (`typeof value === "string"`). -/
def textLikeHandler : Handler :=
  ⟨fun _ _ v =>
    match v with
    | .vStr _ => true
    | _ => false,
   fun _ _ _ _ => .ok ()⟩

/-- A handler that matches everything and stores successfully. -/
def alwaysHandler : Handler := ⟨fun _ _ _ => true, fun _ _ _ _ => .ok ()⟩

/-- A handler that matches everything and rejects with error code `7`. -/
def failingHandler : Handler := ⟨fun _ _ _ => true, fun _ _ _ _ => .error 7⟩

/-- Modelled from the spec: the destination locator of a property, per the
amended C8 reading — the effective property-name encoder applied to the key,
then `encodeURIComponent`, joined through the resolver. -/
def childDestination (dest : Str) (merged : Option ValueStorageHandlerOptions)
    (key : Str) : Except DirectoryEscapeError Str :=
  getContentsUrlE (mkDirectoryReference dest)
    (encodeURIComponent (effectiveEncoder merged key))

/-- Modelled from the spec (§4.4 step 5): the attempt on one single property
— resolve its destination, scan the handlers, recurse when the engine itself
can store it, and otherwise fail under `strict` or skip — with no
continuation onto later siblings. -/
def specProcessProperty
    (recurse : Str → Str → JSValue → Option ValueStorageHandlerOptions →
      List Event × Except EngineError Unit)
    (handlers : List Handler) (dr : DirectoryReference) (pathInSource : Str)
    (merged : Option ValueStorageHandlerOptions) (p : Str × JSValue) :
    List Event × Except EngineError Unit :=
  match p with
  | (key, nestedValue) =>
    let nestedPath := pathInSource ++ '/' :: encodePathElement key
    match getContentsUrlE dr (encodeURIComponent (effectiveEncoder merged key)) with
    | .error e => ([], .error (.dirEscape e))
    | .ok nestedUrl =>
      let scanned := scanHandlers 0 handlers nestedPath nestedUrl nestedValue merged
      match scanned.2 with
      | .failed c => (scanned.1, .error (.handlerFailure c))
      | .stored => (scanned.1, .ok ())
      | .noMatch =>
        if isObject nestedValue then
          let rec1 := recurse nestedPath nestedUrl nestedValue merged
          (scanned.1 ++ rec1.1, rec1.2)
        else if strictFlag merged then
          (scanned.1, .error (.noHandlerMatched nestedPath))
        else (scanned.1, .ok ())

/-- Modelled from the spec (§5): strictly sequential processing — attempt
each property exactly once, in list order, aborting at the first failure
while keeping the effects of all earlier properties. -/
def seqFirstError
    (procOne : Str × JSValue → List Event × Except EngineError Unit) :
    List (Str × JSValue) → List Event × Except EngineError Unit
  | [] => ([], .ok ())
  | p :: rest =>
    match procOne p with
    | (evs, .error e) => (evs, .error e)
    | (evs, .ok _) =>
      let r := seqFirstError procOne rest
      (evs ++ r.1, r.2)

/-- The engine's property loop is exactly the sequential, first-error-aborts
fold of the single-property attempt. -/
theorem runProps_eq_seqFirstError
    (recurse : Str → Str → JSValue → Option ValueStorageHandlerOptions →
      List Event × Except EngineError Unit)
    (handlers : List Handler) (dr : DirectoryReference) (pathInSource : Str)
    (merged : Option ValueStorageHandlerOptions)
    (props : List (Str × JSValue)) :
    runProps recurse handlers dr pathInSource merged props =
      seqFirstError (specProcessProperty recurse handlers dr pathInSource merged)
        props := by
  induction props with
  | nil => rfl
  | cons p rest ih =>
    obtain ⟨key, nestedValue⟩ := p
    simp only [runProps, seqFirstError, specProcessProperty]
    rcases hurl : getContentsUrlE dr
        (encodeURIComponent (effectiveEncoder merged key)) with e | nestedUrl
    · rfl
    · rcases hscan : scanHandlers 0 handlers
          (pathInSource ++ '/' :: encodePathElement key) nestedUrl nestedValue
          merged with ⟨sevs, sres⟩
      dsimp only
      rw [hscan]
      cases sres with
      | stored => simp [ih]
      | failed c => simp
      | noMatch =>
        cases hobj : isObject nestedValue with
        | true =>
          rcases hrec : recurse (pathInSource ++ '/' :: encodePathElement key)
              nestedUrl nestedValue merged with ⟨revs, rres⟩
          cases rres with
          | ok u => simp [ih, List.append_assoc]
          | error e => simp
        | false =>
          cases hstrict : strictFlag merged with
          | true => simp
          | false => simp [ih]

/-- C7: for every string, decoding the encoding returns the original:
`decodePathElement (encodePathElement s) = s`, including the empty string and
strings with repeated or adjacent occurrences of the escape character `%`
and the separator character `/`. -/
theorem claim_C7 (s : Str) :
    decodePathElement (encodePathElement s) = s := by
  induction s with
  | nil => simp [encodePathElement, decodePathElement, replaceAll_nil]
  | cons c s ih =>
    by_cases h1 : c = '%'
    · subst h1
      rw [encodePathElement_cons_pct]
      unfold decodePathElement
      rw [decode1_cons_esc25, decode2_cons_esc25]
      unfold decodePathElement at ih
      rw [ih]
    · by_cases h2 : c = '/'
      · subst h2
        rw [encodePathElement_cons_slash]
        unfold decodePathElement
        rw [decode1_cons_esc2F]
        rw [decode2_cons_other (by decide)]
        unfold decodePathElement at ih
        rw [ih]
      · rw [encodePathElement_cons_other h1 h2]
        unfold decodePathElement
        rw [decode1_cons_other h1, decode2_cons_other h1]
        unfold decodePathElement at ih
        rw [ih]

theorem isObject_vObj (props : List (Str × JSValue)) :
    isObject (.vObj props) = true := rfl

theorem jsEntriesE_vObj (props : List (Str × JSValue)) :
    jsEntriesE (.vObj props) = .ok props := rfl

theorem optOrElse_none {α : Type} (y : Option α) :
    (y.orElse fun _ => none) = y := by
  cases y <;> rfl

theorem objAssign_empty (d : ValueStorageHandlerOptions) :
    objAssign emptyOptions d = d := by
  cases d
  simp [objAssign, emptyOptions, optOrElse_none]

/-- C1: for a directory reference built over pathname `p`, every name whose
normalized join stays within the subtree (the trailing-slash path is a
prefix of the resolved path) makes `getContentsUrl` succeed with exactly the
resolved path — a path starting with the canonical path followed by one
separator, where at the root canonical path and separator coincide in `"/"`
— and every name whose normalized join escapes raises a
`DirectoryEscapeError` recording the offending name, the resolved path, and
the enclosing canonical path. -/
theorem claim_C1 (p n : Str) :
    (List.isPrefixOf (mkDirectoryReference p).trailingSlashPath
        (posixNormalize (urlResolveUnderBase
          (mkDirectoryReference p).trailingSlashPath n)) = true →
      getContentsUrlE (mkDirectoryReference p) n =
        Except.ok (posixNormalize (urlResolveUnderBase
          (mkDirectoryReference p).trailingSlashPath n)) ∧
      ((mkDirectoryReference p).canonicalPath = ['/'] ∨
        (mkDirectoryReference p).trailingSlashPath =
          (mkDirectoryReference p).canonicalPath ++ ['/'])) ∧
    (List.isPrefixOf (mkDirectoryReference p).trailingSlashPath
        (posixNormalize (urlResolveUnderBase
          (mkDirectoryReference p).trailingSlashPath n)) = false →
      getContentsUrlE (mkDirectoryReference p) n =
        Except.error ⟨n, posixNormalize (urlResolveUnderBase
          (mkDirectoryReference p).trailingSlashPath n),
          (mkDirectoryReference p).canonicalPath⟩) := by
  constructor
  · intro h
    refine ⟨?_, trailingSlash_characterization p⟩
    unfold getContentsUrlE
    simp [h]
  · intro h
    unfold getContentsUrlE
    simp [h]

/-- Witness for C1: under `/foo/bar`, the name `"x"` is contained and
resolves to `/foo/bar/x`; the name `"../x"` escapes and raises the error
recording the name, the resolved path `/foo/x` and the enclosing
`/foo/bar`. -/
theorem claim_C1_witness :
    (getContentsUrlE (mkDirectoryReference ("/foo/bar".data)) ("x".data) =
        Except.ok ("/foo/bar/x".data) ∧
      ((mkDirectoryReference ("/foo/bar".data)).canonicalPath = ['/'] ∨
        (mkDirectoryReference ("/foo/bar".data)).trailingSlashPath =
          (mkDirectoryReference ("/foo/bar".data)).canonicalPath ++ ['/'])) ∧
    getContentsUrlE (mkDirectoryReference ("/foo/bar".data)) ("../x".data) =
      Except.error ⟨"../x".data, "/foo/x".data, "/foo/bar".data⟩ := by
  have h1 := (claim_C1 ("/foo/bar".data) ("x".data)).1 (by decide)
  have h2 := (claim_C1 ("/foo/bar".data) ("../x".data)).2 (by decide)
  have e1 : posixNormalize (urlResolveUnderBase
      (mkDirectoryReference ("/foo/bar".data)).trailingSlashPath ("x".data)) =
      "/foo/bar/x".data := by decide
  have e2 : posixNormalize (urlResolveUnderBase
      (mkDirectoryReference ("/foo/bar".data)).trailingSlashPath
      ("../x".data)) = "/foo/x".data := by decide
  have e3 : (mkDirectoryReference ("/foo/bar".data)).canonicalPath =
      "/foo/bar".data := by decide
  rw [e1] at h1
  rw [e2, e3] at h2
  exact ⟨⟨h1.1, h1.2⟩, h2⟩

/-- C2 (code bug): the repository's tests require `canStoreValue` to be
false on `42` and on arrays, but the source's `isObject` — whose first
conjunct `typeof (candidate === "object")` is the truthiness of the string
`"boolean"`, hence always true — makes `canStoreValue` true on every
non-null non-array value, including numbers, strings, booleans and
`undefined`. -/
theorem claim_C2 :
    canStoreValue [] ("/tmp".data) (.vNum 42) = true ∧
    canStoreValue [] ("/tmp".data) (.vStr ("b".data)) = true ∧
    canStoreValue [] ("/tmp".data) .vUndefined = true ∧
    canStoreValue [] ("/tmp".data) (.vBool true) = true ∧
    canStoreValue [] ("/tmp".data) .vNull = false ∧
    canStoreValue [] ("/tmp".data) (.vArr [.vObj [], .vObj []]) = false ∧
    canStoreValue [] ("/tmp".data) (.vObj []) = true := by
  decide

/-- C3 (code bug): `storeValue` on the number `42` does not reject with a
`TypeError` before any directory creation — the buggy `isObject` accepts it,
the destination directory is created, and the call resolves. Arrays and
`null` do still fail up front with the `TypeError` naming `pathInSource`. -/
theorem claim_C3 :
    storeValueFuel 2 [] none [] ("/tmp".data) (.vNum 42) none =
      ([.createDir ("/tmp".data)], .ok ()) ∧
    storeValueFuel 2 [] none [] ("/tmp".data) (.vArr [.vObj []]) none =
      ([], .error (.typeMismatch [])) ∧
    storeValueFuel 2 [] none [] ("/tmp".data) .vNull none =
      ([], .error (.typeMismatch [])) :=
  ⟨rfl, rfl, rfl⟩

/-- C4 (code bug): with no matching handler and `strict: true`, a property
holding the primitive `42` is not rejected with a no-handler error: the
buggy `isObject` lets the engine recurse into it as a directory, creating
`/tmp/xy/a` and resolving successfully. For the test's string property `"b"`
the engine descends `"/a"`, `"/a/0"`, `"/a/0/0"`, … without bound (marked
`outOfFuel` in the model), creating a directory at every level, instead of
rejecting after the single `canStoreValue` consultation the test expects. -/
theorem claim_C4 :
    storeValueFuel 2 [neverHandler] none [] ("/tmp/xy".data)
        (.vObj [("a".data, .vNum 42)]) (some ⟨none, none, some true, none⟩) =
      ([.createDir ("/tmp/xy".data),
        .canStoreQuery 0 ("/a".data) ("/tmp/xy/a".data) (.vNum 42),
        .createDir ("/tmp/xy/a".data)], .ok ()) ∧
    storeValueFuel 3 [neverHandler] none [] ("/tmp/xy".data)
        (.vObj [("a".data, .vStr ("b".data))])
        (some ⟨none, none, some true, none⟩) =
      ([.createDir ("/tmp/xy".data),
        .canStoreQuery 0 ("/a".data) ("/tmp/xy/a".data) (.vStr ("b".data)),
        .createDir ("/tmp/xy/a".data),
        .canStoreQuery 0 ("/a/0".data) ("/tmp/xy/a/0".data) (.vStr ("b".data)),
        .createDir ("/tmp/xy/a/0".data),
        .canStoreQuery 0 ("/a/0/0".data) ("/tmp/xy/a/0/0".data)
          (.vStr ("b".data))],
        .error .outOfFuel) :=
  ⟨rfl, rfl⟩

/-- C5: the candidate scan consults handlers in order and stops at the first
match: with handlers `[H1, H2]`, when `H1.canStore` is true the scan's trace
is exactly one consultation of `H1` followed by its delegation — `H2` is
never consulted — and when `H1.canStore` is false, `H2` is consulted next;
for any handler list, a scan delegates to at most one handler. -/
theorem claim_C5 (H1 H2 : Handler) (p u : Str) (v : JSValue)
    (o : Option ValueStorageHandlerOptions) :
    (H1.canStore p u v = true →
      scanHandlers 0 [H1, H2] p u v o =
        ([.canStoreQuery 0 p u v, .storeCall 0 p u v o],
          scanOutcomeOf (H1.runStore p u v o))) ∧
    (H1.canStore p u v = false →
      scanHandlers 0 [H1, H2] p u v o =
        (Event.canStoreQuery 0 p u v :: Event.canStoreQuery 1 p u v ::
            (if H2.canStore p u v then [Event.storeCall 1 p u v o] else []),
          if H2.canStore p u v then scanOutcomeOf (H2.runStore p u v o)
          else ScanResult.noMatch)) ∧
    (∀ (idx : Nat) (hs : List Handler),
      countStoreCalls (scanHandlers idx hs p u v o).1 ≤ 1) := by
  refine ⟨?_, ?_, ?_⟩
  · intro h
    cases hr : H1.runStore p u v o with
    | ok w => simp [scanHandlers, h, hr, scanOutcomeOf]
    | error c => simp [scanHandlers, h, hr, scanOutcomeOf]
  · intro h
    cases h2 : H2.canStore p u v with
    | true =>
      cases hr : H2.runStore p u v o with
      | ok w => simp [scanHandlers, h, h2, hr, scanOutcomeOf]
      | error c => simp [scanHandlers, h, h2, hr, scanOutcomeOf]
    | false => simp [scanHandlers, h, h2]
  · intro idx hs
    induction hs generalizing idx with
    | nil => simp [scanHandlers, countStoreCalls]
    | cons hh rest ih =>
      cases hc : hh.canStore p u v with
      | true =>
        cases hr : hh.runStore p u v o with
        | ok w => simp [scanHandlers, hc, hr, countStoreCalls]
        | error c => simp [scanHandlers, hc, hr, countStoreCalls]
      | false =>
        have h' := ih (idx + 1)
        simp only [scanHandlers, hc, countStoreCalls] at h' ⊢
        simpa using h'

/-- Witness for C5: with a string-matching first handler the scan stops at
index `0` and never consults index `1`; with a never-matching first handler
the second handler is consulted and fires. -/
theorem claim_C5_witness :
    scanHandlers 0 [textLikeHandler, neverHandler] ("/a".data)
        ("/tmp/xyz/a".data) (.vStr ("b".data)) none =
      ([.canStoreQuery 0 ("/a".data) ("/tmp/xyz/a".data) (.vStr ("b".data)),
        .storeCall 0 ("/a".data) ("/tmp/xyz/a".data) (.vStr ("b".data)) none],
        .stored) ∧
    scanHandlers 0 [neverHandler, textLikeHandler] ("/a".data)
        ("/tmp/xyz/a".data) (.vStr ("b".data)) none =
      ([.canStoreQuery 0 ("/a".data) ("/tmp/xyz/a".data) (.vStr ("b".data)),
        .canStoreQuery 1 ("/a".data) ("/tmp/xyz/a".data) (.vStr ("b".data)),
        .storeCall 1 ("/a".data) ("/tmp/xyz/a".data) (.vStr ("b".data)) none],
        .stored) :=
  ⟨(claim_C5 textLikeHandler neverHandler ("/a".data) ("/tmp/xyz/a".data)
      (.vStr ("b".data)) none).1 rfl,
   (claim_C5 neverHandler textLikeHandler ("/a".data) ("/tmp/xyz/a".data)
      (.vStr ("b".data)) none).2.1 rfl⟩

/-- One engine step on an object value: create the destination directory,
then fold the single-property attempt sequentially with first-error abort
over the object's entries. -/
theorem storeValueFuel_succ_obj (fuel : Nat) (hs : List Handler)
    (ds : Option ValueStorageHandlerOptions) (pis dest : Str)
    (props : List (Str × JSValue)) (o : Option ValueStorageHandlerOptions)
    (hab : throwIfAbortedCheck o = none) :
    storeValueFuel (fuel + 1) hs ds pis dest (.vObj props) o =
      (Event.createDir (mkDirectoryReference dest).canonicalPath ::
        (seqFirstError (specProcessProperty
          (fun p u v oo => storeValueFuel fuel hs ds p u v oo) hs
          (mkDirectoryReference dest) pis (mergeOptions ds o)) props).1,
       (seqFirstError (specProcessProperty
          (fun p u v oo => storeValueFuel fuel hs ds p u v oo) hs
          (mkDirectoryReference dest) pis (mergeOptions ds o)) props).2) := by
  simp only [storeValueFuel, hab]
  simp [isObject_vObj, jsEntriesE_vObj]
  rw [runProps_eq_seqFirstError]
  exact ⟨rfl, rfl⟩

/-- C6: an object-shaped property no handler matches is materialized by the
engine recursing into its own `storeValue` with the same handler list and
the merged options — independent of the `strict` flag, which is never
consulted on this path: the run is the destination directory creation, the
scan's consultations, then exactly the recursive run's trace and result. -/
theorem claim_C6 (fuel : Nat) (hs : List Handler)
    (ds : Option ValueStorageHandlerOptions) (pis dest key : Str)
    (nv : JSValue) (o : Option ValueStorageHandlerOptions) (u : Str)
    (evs : List Event)
    (hobj : isObject nv = true)
    (hab : throwIfAbortedCheck o = none)
    (hurl : getContentsUrlE (mkDirectoryReference dest)
      (encodeURIComponent (effectiveEncoder (mergeOptions ds o) key)) =
        Except.ok u)
    (hscan : scanHandlers 0 hs (pis ++ '/' :: encodePathElement key) u nv
      (mergeOptions ds o) = (evs, ScanResult.noMatch)) :
    storeValueFuel (fuel + 1) hs ds pis dest (.vObj [(key, nv)]) o =
      (Event.createDir (mkDirectoryReference dest).canonicalPath ::
        (evs ++ (storeValueFuel fuel hs ds
          (pis ++ '/' :: encodePathElement key) u nv (mergeOptions ds o)).1),
       (storeValueFuel fuel hs ds (pis ++ '/' :: encodePathElement key) u nv
         (mergeOptions ds o)).2) := by
  rw [storeValueFuel_succ_obj fuel hs ds pis dest [(key, nv)] o hab]
  simp only [seqFirstError, specProcessProperty, hurl]
  rw [hscan]
  rw [hobj]
  rcases hrec : storeValueFuel fuel hs ds
      (pis ++ '/' :: encodePathElement key) u nv (mergeOptions ds o)
    with ⟨revs, rres⟩
  cases rres with
  | ok w => simp
  | error e => simp

/-- Witness for C6: storing the object with the single empty-object property
`a` and no handlers produces exactly two directory creations — the
destination and its `a` subdirectory — and no handler invocation. -/
theorem claim_C6_witness :
    storeValueFuel 2 [] none [] ("/tmp/xyz".data)
        (.vObj [("a".data, .vObj [])]) none =
      ([.createDir ("/tmp/xyz".data), .createDir ("/tmp/xyz/a".data)],
        .ok ()) :=
  claim_C6 1 [] none [] ("/tmp/xyz".data) ("a".data) (.vObj []) none
    ("/tmp/xyz/a".data) [] rfl rfl rfl rfl

/-- The single-matched-property run: when the destination resolves to `u`
and the handler matches and stores successfully, one engine step is exactly
the directory creation, the consultation and the delegation at `u` with the
merged options. -/
theorem storeValue_single_matched (fuel : Nat) (h : Handler)
    (ds : Option ValueStorageHandlerOptions) (pis dest key : Str)
    (nv : JSValue) (o : Option ValueStorageHandlerOptions) (u : Str)
    (hab : throwIfAbortedCheck o = none)
    (hurl : childDestination dest (mergeOptions ds o) key = Except.ok u)
    (hcan : h.canStore (pis ++ '/' :: encodePathElement key) u nv = true)
    (hrun : h.runStore (pis ++ '/' :: encodePathElement key) u nv
      (mergeOptions ds o) = .ok ()) :
    storeValueFuel (fuel + 1) [h] ds pis dest (.vObj [(key, nv)]) o =
      ([.createDir (mkDirectoryReference dest).canonicalPath,
        .canStoreQuery 0 (pis ++ '/' :: encodePathElement key) u nv,
        .storeCall 0 (pis ++ '/' :: encodePathElement key) u nv
          (mergeOptions ds o)],
        .ok ()) := by
  have hscan : scanHandlers 0 [h] (pis ++ '/' :: encodePathElement key) u nv
      (mergeOptions ds o) =
      ([.canStoreQuery 0 (pis ++ '/' :: encodePathElement key) u nv,
        .storeCall 0 (pis ++ '/' :: encodePathElement key) u nv
          (mergeOptions ds o)], .stored) := by
    simp [scanHandlers, hcan, hrun]
  unfold childDestination at hurl
  rw [storeValueFuel_succ_obj fuel [h] ds pis dest [(key, nv)] o hab]
  simp only [seqFirstError, specProcessProperty, hurl]
  rw [hscan]
  dsimp only
  simp

/-- C8 (amended): the engine computes each property's destination locator by
applying the effective property-name encoder (the merged options' encoder if
present, else the path codec's encode) to the key and then **additionally**
applying `encodeURIComponent` to the result before joining it onto the
canonical location (`childDestination`); the matching handler receives
exactly that locator. -/
theorem claim_C8 (fuel : Nat) (h : Handler)
    (ds : Option ValueStorageHandlerOptions) (pis dest key : Str)
    (nv : JSValue) (o : Option ValueStorageHandlerOptions) (u : Str)
    (hab : throwIfAbortedCheck o = none)
    (hurl : childDestination dest (mergeOptions ds o) key = Except.ok u)
    (hcan : h.canStore (pis ++ '/' :: encodePathElement key) u nv = true)
    (hrun : h.runStore (pis ++ '/' :: encodePathElement key) u nv
      (mergeOptions ds o) = .ok ()) :
    storeValueFuel (fuel + 1) [h] ds pis dest (.vObj [(key, nv)]) o =
      ([.createDir (mkDirectoryReference dest).canonicalPath,
        .canStoreQuery 0 (pis ++ '/' :: encodePathElement key) u nv,
        .storeCall 0 (pis ++ '/' :: encodePathElement key) u nv
          (mergeOptions ds o)],
        .ok ()) :=
  storeValue_single_matched fuel h ds pis dest key nv o u hab hurl hcan hrun

/-- Witness for C8 at the key `"%"`: the effective encoder yields `%25`,
`encodeURIComponent` re-encodes it to `%2525`, and the handler receives the
destination `/tmp/xyz/%2525`. -/
theorem claim_C8_witness :
    storeValueFuel 1 [alwaysHandler] none [] ("/tmp/xyz".data)
        (.vObj [(['%'], .vStr ("x".data))]) none =
      ([.createDir ("/tmp/xyz".data),
        .canStoreQuery 0 ("/%25".data) ("/tmp/xyz/%2525".data)
          (.vStr ("x".data)),
        .storeCall 0 ("/%25".data) ("/tmp/xyz/%2525".data)
          (.vStr ("x".data)) none],
        .ok ()) :=
  claim_C8 0 alwaysHandler none [] ("/tmp/xyz".data) ['%']
    (.vStr ("x".data)) none ("/tmp/xyz/%2525".data) rfl rfl rfl rfl

/-- C8 (counterexample): storing the single-property object with key `"%"`
through an always-matching handler hands the handler the destination
`/tmp/xyz/%2525` — whereas joining exactly the effective encoder's output
`%25`, as the claim states, would give `/tmp/xyz/%25`; the two differ. -/
theorem claim_C8_counterexample :
    storeValueFuel 2 [alwaysHandler] none [] ("/tmp/xyz".data)
        (.vObj [(['%'], .vStr ("x".data))]) none =
      ([.createDir ("/tmp/xyz".data),
        .canStoreQuery 0 ("/%25".data) ("/tmp/xyz/%2525".data)
          (.vStr ("x".data)),
        .storeCall 0 ("/%25".data) ("/tmp/xyz/%2525".data)
          (.vStr ("x".data)) none],
        .ok ()) ∧
    getContentsUrlE (mkDirectoryReference ("/tmp/xyz".data))
        (effectiveEncoder none ['%']) = Except.ok ("/tmp/xyz/%25".data) ∧
    ("/tmp/xyz/%2525".data : Str) ≠ ("/tmp/xyz/%25".data : Str) :=
  ⟨rfl, rfl, by decide⟩

/-- C9: option merging is a key-by-key shallow merge with call-site values
winning — each field of the merge of two present records is the call-site
field when set, else the default — and end-to-end, a materializer with
default options `mode 0o666, signal S` invoked with call-site options
`mode 0o777` delegates to the matching handler with exactly
`mode 0o777, signal S`. -/
theorem claim_C9 :
    (∀ (d o : ValueStorageHandlerOptions),
      mergeOptions (some d) (some o) =
        some ⟨o.signal.orElse fun _ => d.signal,
              o.mode.orElse fun _ => d.mode,
              o.strict.orElse fun _ => d.strict,
              o.propertyNameEncoder.orElse fun _ => d.propertyNameEncoder⟩) ∧
    (∀ (fuel : Nat) (h : Handler) (pis dest key : Str) (nv : JSValue)
      (u : Str) (sigId : Nat),
      getContentsUrlE (mkDirectoryReference dest)
          (encodeURIComponent (encodePathElement key)) = Except.ok u →
      h.canStore (pis ++ '/' :: encodePathElement key) u nv = true →
      h.runStore (pis ++ '/' :: encodePathElement key) u nv
          (some ⟨some ⟨sigId, false⟩, some 0o777, none, none⟩) = .ok () →
      storeValueFuel (fuel + 1) [h]
          (some ⟨some ⟨sigId, false⟩, some 0o666, none, none⟩)
          pis dest (.vObj [(key, nv)])
          (some ⟨none, some 0o777, none, none⟩) =
        ([.createDir (mkDirectoryReference dest).canonicalPath,
          .canStoreQuery 0 (pis ++ '/' :: encodePathElement key) u nv,
          .storeCall 0 (pis ++ '/' :: encodePathElement key) u nv
            (some ⟨some ⟨sigId, false⟩, some 0o777, none, none⟩)],
          .ok ())) := by
  constructor
  · intro d o
    show some (objAssign (objAssign emptyOptions d) o) = _
    rw [objAssign_empty]
    rfl
  · intro fuel h pis dest key nv u sigId hurl hcan hrun
    exact storeValue_single_matched fuel h
      (some ⟨some ⟨sigId, false⟩, some 0o666, none, none⟩) pis dest key nv
      (some ⟨none, some 0o777, none, none⟩) u rfl hurl hcan hrun

/-- Witness for C9: the end-to-end scenario at concrete inputs — default
options `mode 0o666, signal 5`, call-site `mode 0o777` — the delegated
handler receives merged options `mode 0o777, signal 5`. -/
theorem claim_C9_witness :
    storeValueFuel 1 [textLikeHandler] (some ⟨some ⟨5, false⟩, some 0o666,
        none, none⟩) [] ("/tmp/xyz".data)
        (.vObj [("a".data, .vStr ("b".data))])
        (some ⟨none, some 0o777, none, none⟩) =
      ([.createDir ("/tmp/xyz".data),
        .canStoreQuery 0 ("/a".data) ("/tmp/xyz/a".data) (.vStr ("b".data)),
        .storeCall 0 ("/a".data) ("/tmp/xyz/a".data) (.vStr ("b".data))
          (some ⟨some ⟨5, false⟩, some 0o777, none, none⟩)],
        .ok ()) :=
  claim_C9.2 0 textLikeHandler [] ("/tmp/xyz".data) ("a".data)
    (.vStr ("b".data)) ("/tmp/xyz/a".data) 5 rfl rfl rfl

/-- C10: one engine step on an object is: create the destination directory
first, then the strictly sequential, first-error-aborting fold of the
single-property attempt over the object's entries in their enumeration
order — each property attempted exactly once, later siblings untouched
after a failure, the effects of earlier siblings retained. -/
theorem claim_C10 (fuel : Nat) (hs : List Handler)
    (ds : Option ValueStorageHandlerOptions) (pis dest : Str)
    (props : List (Str × JSValue)) (o : Option ValueStorageHandlerOptions)
    (hab : throwIfAbortedCheck o = none) :
    storeValueFuel (fuel + 1) hs ds pis dest (.vObj props) o =
      (Event.createDir (mkDirectoryReference dest).canonicalPath ::
        (seqFirstError (specProcessProperty
          (fun p u v oo => storeValueFuel fuel hs ds p u v oo) hs
          (mkDirectoryReference dest) pis (mergeOptions ds o)) props).1,
       (seqFirstError (specProcessProperty
          (fun p u v oo => storeValueFuel fuel hs ds p u v oo) hs
          (mkDirectoryReference dest) pis (mergeOptions ds o)) props).2) :=
  storeValueFuel_succ_obj fuel hs ds pis dest props o hab

/-- Witness for C10: a two-property object whose first property's handler
rejects — the run is the directory creation, the first property's
consultation and failed delegation, and an error; the second property is
never consulted. -/
theorem claim_C10_witness :
    storeValueFuel 1 [failingHandler] none [] ("/tmp".data)
        (.vObj [("a".data, .vStr ("x".data)), ("b".data, .vStr ("y".data))])
        none =
      ([.createDir ("/tmp".data),
        .canStoreQuery 0 ("/a".data) ("/tmp/a".data) (.vStr ("x".data)),
        .storeCall 0 ("/a".data) ("/tmp/a".data) (.vStr ("x".data)) none],
        .error (.handlerFailure 7)) :=
  claim_C10 0 [failingHandler] none [] ("/tmp".data)
    [("a".data, .vStr ("x".data)), ("b".data, .vStr ("y".data))] none rfl

end OTD
